import Mathlib

/-!
Shallow embedding of the mozc ibus engine adapter
(`src/unix/ibus/mozc_engine.cc`) and of the client quality harness
(`src/client/client_quality_test_main.cc`), together with proofs of the
specification's testable properties.

Modelling conventions:
* Protobuf messages (`commands::Preedit`, `commands::Output`, ...) become
  Lean structures holding exactly the fields the adapter reads; `has_foo()`
  optional fields become `Option`.
* The external collaborators (Session Client, Key Translator, the static
  property tables from `mozc_engine_property.cc`, icon path lookup) are
  parameters collected in an `Env` record; their responses are pure
  functions, matching the spec's "external collaborator, contract only".
* Host-side `ibus_engine_*` rendering calls carry no adapter state and are
  not traced; adapter state (composition mode, candidate ids, radio
  checked flags, panel icon, last sync time) lives in `EngineState`, and
  every Session Client call is recorded in an output trace
  (`List SessionCall`).
* `UpdateAll` can re-enter itself through
  `UpdateCompositionMode -> PropertyActivate -> SetCompositionMode`, so the
  mutually recursive functions take an explicit fuel argument; fuel 0
  returns the no-op `([], st)`.
* The engine functions are modelled after the plain-Linux (non
  `OS_CHROMEOS`) preprocessor branch, the out-of-process configuration the
  spec describes; `UpdateConfig`, whose whole body is under
  `#ifdef OS_CHROMEOS`, is modelled from that body since it is the only
  configuration in which the function does anything.
-/

/-- Composition modes of `commands::CompositionMode` used by the adapter. -/
inductive CompositionMode where
  | direct
  | hiragana
  | fullKatakana
  | halfAscii
  | fullAscii
  | halfKatakana
deriving DecidableEq

/-- Preedit methods of `config::Config::PreeditMethod` (ROMAN / KANA). -/
inductive PreeditMethod where
  | roman
  | kana
deriving DecidableEq

/-- Special keys of `commands::KeyEvent` used by the embedded code:
`SPACE` and `ON` (named `keyOn` here). -/
inductive SpecialKey where
  | space
  | keyOn
deriving DecidableEq

/-- Abstract key event (`commands::KeyEvent`): a printable key code or a
named special key. -/
structure KeyEvent where
  keyCode : Option Nat
  specialKey : Option SpecialKey
deriving DecidableEq

/-- Session commands built by the adapter (`commands::SessionCommand`
with its `type` and the payload fields the adapter sets). -/
inductive SessionCommand where
  | revert
  | submit
  | selectCandidate (id : Int)
  | switchInputMode (mode : CompositionMode)
deriving DecidableEq

/-- A single field update applied to a fresh working `config::Config` by
`MozcEngine::UpdateConfig`. -/
inductive ConfigUpdate where
  | enumVal (field : String) (v : Nat)
  | u32Val (field : String) (v : Nat)
  | boolVal (field : String) (v : Bool)
deriving DecidableEq

/-- One call issued to the Session Client (`session_->...`). -/
inductive SessionCall where
  | sendKey (k : KeyEvent)
  | sendCommand (c : SessionCommand)
  | getConfig
  | setConfig (u : ConfigUpdate)
  | syncData
  | launchTool (mode : String) (arg : String)
deriving DecidableEq

/-- Segment annotation of `commands::Preedit::Segment`
(NONE / UNDERLINE / HIGHLIGHT). -/
inductive Annot where
  | none
  | underline
  | highlight
deriving DecidableEq

/-- One preedit segment: `value()`, `value_length()` and `annotation()`.
The field name `annot` stands for the source's `annotation` accessor. -/
structure Segment where
  value : String
  valueLength : Nat
  annot : Annot
deriving DecidableEq

/-- The `commands::Preedit` message: segments plus the cursor fields read
by `CursorPos`. -/
structure Preedit where
  segments : List Segment
  cursor : Nat
  highlightedPosition : Option Nat
deriving DecidableEq

/-- One candidate row (`commands::Candidates::Candidate`): display value,
optional id, its own `index()` field and the optional shortcut string in
its annotation. -/
structure CandidateEntry where
  value : String
  id : Option Int
  index : Nat
  shortcut : Option String
deriving DecidableEq

/-- The `commands::Candidates` message fields read by the adapter. -/
structure Candidates where
  candidates : List CandidateEntry
  focusedIndex : Option Nat
  size : Nat
deriving DecidableEq

/-- The `commands::Output` session response fields read by the adapter:
`consumed()`, optional `result().value()`, optional preedit, optional
candidates and optional `mode()`. -/
structure Output where
  consumed : Bool
  result : Option String
  preedit : Option Preedit
  candidates : Option Candidates
  mode : Option CompositionMode
deriving DecidableEq

/-- One entry of the static `kMozcEngineProperties` table
(`MozcEngineProperty`: ibus key, composition mode, icon). -/
structure EngineProp where
  key : String
  mode : CompositionMode
  icon : String
deriving DecidableEq

/-- Mutable adapter state: `current_composition_mode_`, `preedit_method_`,
`last_sync_time_`, `unique_candidate_ids_`, the checked flag of each
composition-mode radio property (positionally aligned with the
`kMozcEngineProperties` table) and the icon currently set on the
composition-mode panel button. -/
structure EngineState where
  currentCompositionMode : CompositionMode
  preeditMethod : PreeditMethod
  lastSyncTime : Nat
  uniqueCandidateIds : List Int
  propChecked : List Bool
  panelIcon : String
deriving DecidableEq

/-- External collaborators: Session Client responses, the Key Translator,
the `ImeSwitchUtil` predicate, the static property tables and icon path
lookup.  `toolEntries = none` models `prop_mozc_tool_ == NULL` (mozc_tool
not installed); `sessionPresent` models `session_.get() != NULL`. -/
structure Env where
  sendKeyResp : KeyEvent → Bool × Output
  sendCommandResp : SessionCommand → Bool × Output
  translate : Nat → Nat → Nat → PreeditMethod → Bool → Option KeyEvent
  isTurnOnInDirectMode : KeyEvent → Bool
  compositionEntries : List EngineProp
  toolEntries : Option (List String)
  getIconPath : String → String
  sessionPresent : Bool

/-- Sentinel id for a candidate row without an id (`kBadCandidateId`). -/
def kBadCandidateId : Int := -1

/-- The debounce interval of `SyncData`, `kSyncDataInterval` (5 minutes,
in seconds). -/
def kSyncDataInterval : Nat := 5 * 60

/-- The ibus release-phase modifier bit, `IBUS_RELEASE_MASK` (1 << 30). -/
def kIBusReleaseMask : Nat := 2 ^ 30

/-- The ibus-memconf section the adapter reacts to (`kMozcSectionName`). -/
def kMozcSectionName : String := "engine/Mozc"

/-- The empty second argument of `session_->LaunchTool(entry->mode, "")`. -/
def emptyArg : String := ""

/-- The id list rebuilt by `MozcEngine::UpdateCandidates`: cleared, left
empty when the output has no candidates, otherwise one entry per candidate
row, `candidate(i).id()` when present and `kBadCandidateId` otherwise. -/
def updateCandidatesIds (out : Output) : List Int :=
  match out.candidates with
  | Option.none => []
  | Option.some cs =>
      cs.candidates.map (fun c =>
        match c.id with
        | Option.some i => i
        | Option.none => kBadCandidateId)

mutual

/-- `MozcEngine::UpdateAll`: UpdateResult and UpdatePreedit only render to
the host, UpdateCandidates rebuilds `unique_candidate_ids_`, then
UpdateCompositionMode may re-enter the property machinery. -/
def updateAll (env : Env) (out : Output) (st : EngineState) :
    Nat → List SessionCall × EngineState
  | 0 => ([], st)
  | fuel + 1 =>
      let st1 := { st with uniqueCandidateIds := updateCandidatesIds out }
      updateCompositionMode env out st1 fuel

/-- `MozcEngine::UpdateCompositionMode`: when the output carries a mode
different from the current one, run `PropertyActivate(entry.key, CHECKED)`
for every static table entry with that composition mode. -/
def updateCompositionMode (env : Env) (out : Output) (st : EngineState) :
    Nat → List SessionCall × EngineState
  | 0 => ([], st)
  | fuel + 1 =>
      match out.mode with
      | Option.none => ([], st)
      | Option.some m =>
          if st.currentCompositionMode = m then ([], st)
          else activateMatching env env.compositionEntries m st fuel

/-- The `for` loop of `UpdateCompositionMode` over `kMozcEngineProperties`,
activating each entry whose `composition_mode` equals the new mode. -/
def activateMatching (env : Env) (entries : List EngineProp)
    (m : CompositionMode) (st : EngineState) :
    Nat → List SessionCall × EngineState
  | 0 => ([], st)
  | fuel + 1 =>
      match entries with
      | [] => ([], st)
      | e :: rest =>
          if e.mode = m then
            let r1 := propertyActivate env e.key true st fuel
            let r2 := activateMatching env rest m r1.2 fuel
            (r1.1 ++ r2.1, r2.2)
          else activateMatching env rest m st fuel

/-- `MozcEngine::PropertyActivate` (non-ChromeOS): first scan the
tool-launch namespace (when `prop_mozc_tool_` exists) and launch the
matching tool; otherwise, only when the activated state is
`PROP_STATE_CHECKED` (`checked = true`), walk the composition-mode radio
list. -/
def propertyActivate (env : Env) (name : String) (checked : Bool)
    (st : EngineState) : Nat → List SessionCall × EngineState
  | 0 => ([], st)
  | fuel + 1 =>
      let toolHit :=
        match env.toolEntries with
        | Option.some tools => tools.any (fun t => decide (t = name))
        | Option.none => false
      if toolHit then ([SessionCall.launchTool name emptyArg], st)
      else if checked = false then ([], st)
      else compLoop env name 0 st fuel

/-- The `while` loop of `PropertyActivate` over the live composition-mode
radio list: the entry whose key matches drives `SetCompositionMode`, sets
the panel icon and is checked; every other entry is unchecked. -/
def compLoop (env : Env) (name : String) (i : Nat) (st : EngineState) :
    Nat → List SessionCall × EngineState
  | 0 => ([], st)
  | fuel + 1 =>
      match env.compositionEntries[i]? with
      | Option.none => ([], st)
      | Option.some e =>
          if e.key = name then
            let r1 := setCompositionMode env e.mode st fuel
            let st2 := { r1.2 with
                          panelIcon := env.getIconPath e.icon,
                          propChecked := r1.2.propChecked.set i true }
            let r3 := compLoop env name (i + 1) st2 fuel
            (r1.1 ++ r3.1, r3.2)
          else
            let st1 := { st with propChecked := st.propChecked.set i false }
            compLoop env name (i + 1) st1 fuel

/-- `MozcEngine::SetCompositionMode`: DIRECT submits the pending preedit
and applies the resulting output; any other mode switches the input mode;
`current_composition_mode_` is assigned the requested mode at the end. -/
def setCompositionMode (env : Env) (m : CompositionMode) (st : EngineState) :
    Nat → List SessionCall × EngineState
  | 0 => ([], st)
  | fuel + 1 =>
      if m = CompositionMode.direct then
        let r := env.sendCommandResp SessionCommand.submit
        let u := updateAll env r.2 st fuel
        (SessionCall.sendCommand SessionCommand.submit :: u.1,
         { u.2 with currentCompositionMode := m })
      else
        ([SessionCall.sendCommand (SessionCommand.switchInputMode m)],
         { st with currentCompositionMode := m })

end

/-- `MozcEngine::ProcessKeyEvent` (non-ChromeOS branch): reject release
events, translate through the Key Translator (reject on failure), apply
the DIRECT-mode fast-reject unless `ImeSwitchUtil::IsTurnOnInDirectMode`
holds, then `SendKey` and apply the output; the consumed flag is the one
the output declares.  `layout_is_jp` is computed from the engine name as
in the source. -/
def processKeyEvent (env : Env) (st : EngineState)
    (keyval keycode modifiers : Nat) (engineName : String) (fuel : Nat) :
    Bool × List SessionCall × EngineState :=
  if modifiers &&& kIBusReleaseMask ≠ 0 then (false, [], st)
  else
    let layoutIsJp : Bool := decide (engineName = "mozc-jp")
    match env.translate keyval keycode modifiers st.preeditMethod layoutIsJp with
    | Option.none => (false, [], st)
    | Option.some key =>
        if st.currentCompositionMode = CompositionMode.direct ∧
            env.isTurnOnInDirectMode key = false then
          (false, [], st)
        else
          let r := env.sendKeyResp key
          if r.1 = false then (false, [SessionCall.sendKey key], st)
          else
            let u := updateAll env r.2 st fuel
            (r.2.consumed, SessionCall.sendKey key :: u.1, u.2)

/-- `MozcEngine::RevertSession`: send REVERT; on failure return after the
call, otherwise apply the output via `UpdateAll`. -/
def revertSession (env : Env) (st : EngineState) (fuel : Nat) :
    List SessionCall × EngineState :=
  let r := env.sendCommandResp SessionCommand.revert
  if r.1 = false then ([SessionCall.sendCommand SessionCommand.revert], st)
  else
    let u := updateAll env r.2 st fuel
    (SessionCall.sendCommand SessionCommand.revert :: u.1, u.2)

/-- `MozcEngine::SyncData`: no-op when the session is gone; otherwise sync
when forced, or when the clock has not moved backwards and at least
`kSyncDataInterval` elapsed since `last_sync_time_`; the timestamp is
updated exactly when a sync is performed.  `currentTime` stands for the
`GetTime()` wall-clock read. -/
def syncData (env : Env) (st : EngineState) (force : Bool)
    (currentTime : Nat) : List SessionCall × EngineState :=
  if env.sessionPresent = false then ([], st)
  else if force ∨ (currentTime ≥ st.lastSyncTime ∧
      currentTime - st.lastSyncTime ≥ kSyncDataInterval) then
    ([SessionCall.syncData], { st with lastSyncTime := currentTime })
  else ([], st)

/-- `MozcEngine::FocusOut`: revert the session, then a non-forced
debounced sync. -/
def focusOut (env : Env) (st : EngineState) (currentTime : Nat)
    (fuel : Nat) : List SessionCall × EngineState :=
  let r := revertSession env st fuel
  let s := syncData env r.2 false currentTime
  (r.1 ++ s.1, s.2)

/-- `MozcEngine::CandidateClicked`: index out of range of
`unique_candidate_ids_` (lookup returns `none`) or a sentinel id is a
no-op; otherwise send SELECT_CANDIDATE with the stored id and apply the
output.  The `button` and `state` arguments are unused, as in the
source. -/
def candidateClicked (env : Env) (st : EngineState)
    (index _button _bstate : Nat) (fuel : Nat) :
    List SessionCall × EngineState :=
  match st.uniqueCandidateIds[index]? with
  | Option.none => ([], st)
  | Option.some id =>
      if id = kBadCandidateId then ([], st)
      else
        let r := env.sendCommandResp (SessionCommand.selectCandidate id)
        let u := updateAll env r.2 st fuel
        (SessionCall.sendCommand (SessionCommand.selectCandidate id) :: u.1,
         u.2)

/-! ## Config propagation (`MozcEngine::UpdateConfig`, `OS_CHROMEOS` body) -/

/-- Host-supplied `GValue`: string, int, boolean, or some other GType. -/
inductive GValueT where
  | gstring (s : String)
  | gint (i : Int)
  | gboolean (b : Bool)
  | gother
deriving DecidableEq

/-- The `cpp_type()` of a config field descriptor, as distinguished by the
switch in `UpdateConfig`; every type other than ENUM / UINT32 / BOOL falls
into the unsupported default case. -/
inductive CppType where
  | cppEnum
  | cppUInt32
  | cppBool
  | cppOther
deriving DecidableEq

/-- The protobuf reflection surface of `config::Config` used by
`UpdateConfig`: field lookup by name and enum value lookup by name (enum
values modelled by their numbers). -/
structure ConfigSchema where
  findFieldByName : String → Option CppType
  findEnumValueByName : String → Option Nat

/-- `MozcEngine::UpdateConfig` (the `OS_CHROMEOS` body, the only build in
which the function is not empty), returning the Session Client calls it
issues: nothing unless the section matches and the named field exists with
a value of the declared type, otherwise `SetConfig` of the single applied
update followed by `SyncData`.  A `gint` destined for a UINT32 field goes
through the C `int -> uint32` conversion, i.e. reduction mod 2^32. -/
def updateConfig (schema : ConfigSchema) (sect name : String)
    (g : GValueT) : List SessionCall :=
  if sect ≠ kMozcSectionName then []
  else
    match schema.findFieldByName name with
    | Option.none => []
    | Option.some CppType.cppEnum =>
        match g with
        | GValueT.gstring s =>
            match schema.findEnumValueByName s with
            | Option.none => []
            | Option.some v =>
                [SessionCall.setConfig (ConfigUpdate.enumVal name v),
                 SessionCall.syncData]
        | _ => []
    | Option.some CppType.cppUInt32 =>
        match g with
        | GValueT.gint i =>
            [SessionCall.setConfig
               (ConfigUpdate.u32Val name ((i % ((2 : Int) ^ 32)).toNat)),
             SessionCall.syncData]
        | _ => []
    | Option.some CppType.cppBool =>
        match g with
        | GValueT.gboolean b =>
            [SessionCall.setConfig (ConfigUpdate.boolVal name b),
             SessionCall.syncData]
        | _ => []
    | Option.some CppType.cppOther => []

/-- Value/field type agreement as the specification words it: an
enumeration field takes a string naming a resolvable enum value, an
unsigned-integer field takes an int, a boolean field takes a boolean;
fields of any other declared type accept nothing.  This definition follows
the claim's wording and is compared against `updateConfig` (which is
translated from the source). -/
def specTypeMatches (schema : ConfigSchema) : CppType → GValueT → Bool
  | CppType.cppEnum, GValueT.gstring s =>
      (schema.findEnumValueByName s).isSome
  | CppType.cppUInt32, GValueT.gint _ => true
  | CppType.cppBool, GValueT.gboolean _ => true
  | _, _ => false

/-! ## Rendering composer (`ComposePreeditText`) -/

/-- The ibus attribute kinds appended by `ComposePreeditText`
(`IBUS_ATTR_TYPE_UNDERLINE` / `BACKGROUND` / `FOREGROUND`). -/
inductive AttrType where
  | underline
  | background
  | foreground
deriving DecidableEq

/-- One appended ibus attribute: kind, numeric value (underline style or
color) and the half-open index range it covers. -/
structure IBusAttr where
  attrType : AttrType
  value : Nat
  startIndex : Nat
  endIndex : Nat
deriving DecidableEq

/-- The underline style chosen by the annotation switch: NONE to
`IBUS_ATTR_UNDERLINE_NONE` (0), UNDERLINE to `SINGLE` (1), HIGHLIGHT to
`DOUBLE` (2).  The C++ default case (unknown annotation keeps `ERROR`) is
unreachable because the annotation enum is closed. -/
def annotUnderlineValue : Annot → Nat
  | Annot.none => 0
  | Annot.underline => 1
  | Annot.highlight => 2

/-- Background color added for HIGHLIGHT segments (`kBackgroundColor`). -/
def kBackgroundColor : Nat := 0xD1EAFF

/-- Foreground color added for HIGHLIGHT segments (`kForegroundColor`). -/
def kForegroundColor : Nat := 0x000000

/-- The attribute loop of `ComposePreeditText`: per segment, advance `end`
by `value_length()`, append the underline attribute over `[start, end)`,
and for HIGHLIGHT segments additionally the background and foreground
attributes over the same range; then `start := end`. -/
def composeAttrsAux (segs : List Segment) (start : Nat) : List IBusAttr :=
  match segs with
  | [] => []
  | s :: rest =>
      let e := start + s.valueLength
      let base := [IBusAttr.mk AttrType.underline
                     (annotUnderlineValue s.annot) start e]
      let extra :=
        if s.annot = Annot.highlight then
          [IBusAttr.mk AttrType.background kBackgroundColor start e,
           IBusAttr.mk AttrType.foreground kForegroundColor start e]
        else []
      base ++ extra ++ composeAttrsAux rest e

/-- `ComposePreeditText`: the rendered text is the in-order concatenation
of the segment values; the attribute list is produced by the loop above
starting at 0. -/
def composePreeditText (p : Preedit) : String × List IBusAttr :=
  ((p.segments.map Segment.value).foldl (· ++ ·) "",
   composeAttrsAux p.segments 0)

/-! ## Quality harness (`client_quality_test_main.cc`) -/

/-- Events of one harness test case: a `SendKey`, the `BLEUScore` call
(recording the golden list and the scored candidate string), and a
`SendCommand`. -/
inductive HarnessEvent where
  | sentKey (k : KeyEvent)
  | scored (goldens : List String) (candidate : String)
  | sentCommand (c : SessionCommand)
deriving DecidableEq

/-- The per-character table of `GenerateKeySequenceFrom`: ASCII passes
through, the listed full-width punctuation characters map to their
half-width key codes, anything else is unmappable. -/
def charToKeyEvent (c : Nat) : Option KeyEvent :=
  if 0x20 ≤ c ∧ c ≤ 0x7F then Option.some (KeyEvent.mk (Option.some c) Option.none)
  else if c = 0x3001 ∨ c = 0xFF64 then
    Option.some (KeyEvent.mk (Option.some 0x2C) Option.none)
  else if c = 0x3002 ∨ c = 0xFF0E ∨ c = 0xFF61 then
    Option.some (KeyEvent.mk (Option.some 0x2E) Option.none)
  else if c = 0x2212 ∨ c = 0x2015 then
    Option.some (KeyEvent.mk (Option.some 0x2D) Option.none)
  else if c = 0x300C ∨ c = 0xFF62 then
    Option.some (KeyEvent.mk (Option.some 0x5B) Option.none)
  else if c = 0x300D ∨ c = 0xFF63 then
    Option.some (KeyEvent.mk (Option.some 0x5D) Option.none)
  else if c = 0x30FB ∨ c = 0xFF65 then
    Option.some (KeyEvent.mk (Option.some 0x2F) Option.none)
  else Option.none

/-- The SPACE conversion key appended at the end of every generated key
sequence. -/
def spaceKey : KeyEvent := KeyEvent.mk Option.none (Option.some SpecialKey.space)

/-- The ON key sent before the generated sequence. -/
def onKey : KeyEvent := KeyEvent.mk Option.none (Option.some SpecialKey.keyOn)

/-- `GenerateKeySequenceFrom`: hiragana-to-romanji then full-width to
half-width (both external `Util` routines, passed as parameters), then the
per-character mapping (failing on the first unmappable character), with a
terminating SPACE conversion key. -/
def generateKeySequenceFrom (h2r f2h : String → String)
    (hiraganaSentence : String) : Option (List KeyEvent) :=
  let input := f2h (h2r hiraganaSentence)
  match input.data.mapM (fun ch => charToKeyEvent ch.toNat) with
  | Option.none => Option.none
  | Option.some ks => Option.some (ks ++ [spaceKey])

/-- `GetPreedit`: fails when the output has no preedit, otherwise the
concatenation of the preedit segment values. -/
def getPreedit (out : Output) : Option String :=
  match out.preedit with
  | Option.none => Option.none
  | Option.some p =>
      Option.some (p.segments.foldl (fun acc s => acc ++ s.value) "")

/-- The SendKey loop of `CalculateBLEU`: `resp i` is the session's output
for the i-th `SendKey` of the case (call 0 is the ON key); each call
overwrites `output`, so the loop result is the response to the last key,
threaded together with the next call index and the event log. -/
def runKeys (resp : Nat → Output) (keys : List KeyEvent) :
    Output × Nat × List HarnessEvent :=
  keys.foldl
    (fun acc k => (resp acc.2.1, acc.2.1 + 1, acc.2.2 ++ [HarnessEvent.sentKey k]))
    (resp 0, 1, [HarnessEvent.sentKey onKey])

/-- `CalculateBLEU`: generate the key sequence (fail out on unmappable
input), send ON and then every key, normalize the expected string into the
golden list, read the preedit of the final output (fail out when absent or
empty), normalize and score it, then revert the session.  The external
`Scorer::NormalizeForEvaluate` and `Scorer::BLEUScore` are parameters (the
score is opaque to the harness logic, modelled as an integer). -/
def calculateBLEU (h2r f2h normalize : String → String)
    (bleuScore : List String → String → Int) (resp : Nat → Output)
    (hiraganaSentence expectedResult : String) :
    Option Int × List HarnessEvent :=
  match generateKeySequenceFrom h2r f2h hiraganaSentence with
  | Option.none => (Option.none, [])
  | Option.some keys =>
      let run := runKeys resp keys
      let output := run.1
      let events := run.2.2
      let goldens := [normalize expectedResult]
      match getPreedit output with
      | Option.none => (Option.none, events)
      | Option.some preedit =>
          if preedit = "" then (Option.none, events)
          else
            let preeditNormalized := normalize preedit
            let score := bleuScore goldens preeditNormalized
            (Option.some score,
             events ++ [HarnessEvent.scored goldens preeditNormalized,
                        HarnessEvent.sentCommand SessionCommand.revert])

/-! ## Helper lemmas about the `UpdateAll` machinery -/

/-- Calls that the `UpdateAll` re-entrancy chain can emit: a SUBMIT or
SWITCH_INPUT_MODE command, or a tool launch.  In particular no REVERT, no
SELECT_CANDIDATE, no SyncData. -/
def benignCall : SessionCall → Bool
  | SessionCall.sendCommand SessionCommand.submit => true
  | SessionCall.sendCommand (SessionCommand.switchInputMode _) => true
  | SessionCall.launchTool _ _ => true
  | _ => false

/-- Invariant carried through the mutual induction: every emitted call is
benign and the sync timestamp is untouched. -/
def traceOK (r : List SessionCall × EngineState) (st : EngineState) : Prop :=
  (∀ c ∈ r.1, benignCall c = true) ∧ r.2.lastSyncTime = st.lastSyncTime

lemma mutualFacts (fuel : Nat) :
    (∀ env out st, traceOK (updateAll env out st fuel) st) ∧
    (∀ env out st, traceOK (updateCompositionMode env out st fuel) st) ∧
    (∀ env entries m st, traceOK (activateMatching env entries m st fuel) st) ∧
    (∀ env name checked st,
       traceOK (propertyActivate env name checked st fuel) st) ∧
    (∀ env name i st, traceOK (compLoop env name i st fuel) st) ∧
    (∀ env m st, traceOK (setCompositionMode env m st fuel) st) := by
  induction fuel with
  | zero =>
      refine ⟨?_, ?_, ?_, ?_, ?_, ?_⟩ <;> intros <;>
        simp [updateAll, updateCompositionMode, activateMatching,
              propertyActivate, compLoop, setCompositionMode, traceOK]
  | succ fuel ih =>
      obtain ⟨ihUA, ihUCM, ihAM, ihPA, ihCL, ihSCM⟩ := ih
      refine ⟨?_, ?_, ?_, ?_, ?_, ?_⟩
      · intro env out st
        have h := ihUCM env out
          { st with uniqueCandidateIds := updateCandidatesIds out }
        simpa [updateAll, traceOK] using h
      · intro env out st
        cases hm : out.mode with
        | none => simp [updateCompositionMode, hm, traceOK]
        | some m =>
            by_cases hc : st.currentCompositionMode = m
            · simp [updateCompositionMode, hm, hc, traceOK]
            · have h := ihAM env env.compositionEntries m st
              simpa [updateCompositionMode, hm, hc, traceOK] using h
      · intro env entries m st
        cases entries with
        | nil => simp [activateMatching, traceOK]
        | cons e rest =>
            by_cases hm : e.mode = m
            · have h1 := ihPA env e.key true st
              have h2 := ihAM env rest m (propertyActivate env e.key true st fuel).2
              simp only [activateMatching, hm, if_pos, traceOK]
              refine ⟨?_, ?_⟩
              · intro c hc
                rcases List.mem_append.mp hc with h | h
                · exact h1.1 c h
                · exact h2.1 c h
              · rw [h2.2, h1.2]
            · have h := ihAM env rest m st
              simpa [activateMatching, hm, traceOK] using h
      · intro env name checked st
        simp only [propertyActivate]
        split
        · simp [traceOK, benignCall]
        · split
          · simp [traceOK]
          · exact ihCL env name 0 st
      · intro env name i st
        cases hg : env.compositionEntries[i]? with
        | none => simp [compLoop, hg, traceOK]
        | some e =>
            by_cases hk : e.key = name
            · have h1 := ihSCM env e.mode st
              have h2 := ihCL env name (i + 1)
                { (setCompositionMode env e.mode st fuel).2 with
                    panelIcon := env.getIconPath e.icon,
                    propChecked :=
                      (setCompositionMode env e.mode st fuel).2.propChecked.set i true }
              simp only [compLoop, hg, hk, if_pos, traceOK]
              refine ⟨?_, ?_⟩
              · intro c hc
                rcases List.mem_append.mp hc with h | h
                · exact h1.1 c h
                · exact h2.1 c h
              · rw [h2.2]
                exact h1.2
            · have h := ihCL env name (i + 1)
                { st with propChecked := st.propChecked.set i false }
              simpa [compLoop, hg, hk, traceOK] using h
      · intro env m st
        by_cases hd : m = CompositionMode.direct
        · have h := ihUA env (env.sendCommandResp SessionCommand.submit).2 st
          simp only [setCompositionMode, hd, if_pos, traceOK]
          refine ⟨?_, ?_⟩
          · intro c hc
            rcases List.mem_cons.mp hc with h1 | h1
            · subst h1; rfl
            · exact h.1 c h1
          · exact h.2
        · simp [setCompositionMode, hd, traceOK, benignCall]

lemma updateAll_benign (env : Env) (out : Output) (st : EngineState)
    (fuel : Nat) : ∀ c ∈ (updateAll env out st fuel).1, benignCall c = true :=
  ((mutualFacts fuel).1 env out st).1

lemma updateAll_lastSync (env : Env) (out : Output) (st : EngineState)
    (fuel : Nat) :
    (updateAll env out st fuel).2.lastSyncTime = st.lastSyncTime :=
  ((mutualFacts fuel).1 env out st).2

/-- Number of `SyncData` calls in a trace. -/
def countSync (t : List SessionCall) : Nat :=
  (t.filter (fun c => decide (c = SessionCall.syncData))).length

lemma countSync_append (a b : List SessionCall) :
    countSync (a ++ b) = countSync a + countSync b := by
  simp [countSync, List.filter_append]

lemma countSync_eq_zero_of_benign (t : List SessionCall)
    (h : ∀ c ∈ t, benignCall c = true) : countSync t = 0 := by
  have : t.filter (fun c => decide (c = SessionCall.syncData)) = [] := by
    refine List.filter_eq_nil_iff.mpr ?_
    intro c hc
    have hb := h c hc
    cases c with
    | sendCommand cc => simp
    | sendKey k => simp
    | getConfig => simp
    | setConfig u => simp
    | syncData => simp [benignCall] at hb
    | launchTool m a => simp
  simp [countSync, this]

lemma countSync_revertSession (env : Env) (st : EngineState) (fuel : Nat) :
    countSync (revertSession env st fuel).1 = 0 := by
  by_cases hf : (env.sendCommandResp SessionCommand.revert).1 = false
  · simp [revertSession, hf, countSync]
  · have h := countSync_eq_zero_of_benign _
      (updateAll_benign env (env.sendCommandResp SessionCommand.revert).2 st fuel)
    simp only [revertSession, hf, if_neg, if_false, Bool.false_eq_true]
    simp [countSync] at h ⊢
    exact h

lemma revertSession_lastSync (env : Env) (st : EngineState) (fuel : Nat) :
    (revertSession env st fuel).2.lastSyncTime = st.lastSyncTime := by
  by_cases hf : (env.sendCommandResp SessionCommand.revert).1 = false
  · simp [revertSession, hf]
  · simp only [revertSession, hf, if_false]
    exact updateAll_lastSync env _ st fuel

lemma benign_ne_revert (c : SessionCall) (h : benignCall c = true) :
    c ≠ SessionCall.sendCommand SessionCommand.revert := by
  intro he
  subst he
  simp [benignCall] at h

lemma benign_ne_selectCandidate (c : SessionCall) (h : benignCall c = true)
    (id : Int) : c ≠ SessionCall.sendCommand (SessionCommand.selectCandidate id) := by
  intro he
  subst he
  simp [benignCall] at h

lemma length_foldl_append (l : List String) (acc : String) :
    (l.foldl (· ++ ·) acc).length = acc.length + (l.map String.length).sum := by
  induction l generalizing acc with
  | nil => simp
  | cons s rest ih =>
      simp only [List.foldl_cons, List.map_cons, List.sum_cons]
      rw [ih, String.length_append]
      omega

lemma composeAttrs_ul_cons (s : Segment) (rest : List Segment) (start : Nat) :
    (composeAttrsAux (s :: rest) start).filter
        (fun a => decide (a.attrType = AttrType.underline)) =
      IBusAttr.mk AttrType.underline (annotUnderlineValue s.annot) start
          (start + s.valueLength) ::
        (composeAttrsAux rest (start + s.valueLength)).filter
          (fun a => decide (a.attrType = AttrType.underline)) := by
  by_cases h : s.annot = Annot.highlight <;>
    simp [composeAttrsAux, h, List.filter_append]

lemma composeAttrsAux_mem (segs : List Segment) (start : Nat) :
    ∀ a ∈ composeAttrsAux segs start, ∃ i, i < segs.length ∧
      a.startIndex = start + ((segs.map Segment.valueLength).take i).sum ∧
      a.endIndex = start + ((segs.map Segment.valueLength).take (i + 1)).sum := by
  induction segs generalizing start with
  | nil => simp [composeAttrsAux]
  | cons s rest ih =>
      intro a ha
      by_cases h : s.annot = Annot.highlight
      · simp only [composeAttrsAux, h, if_pos, List.mem_append,
          List.mem_cons, List.mem_singleton, List.not_mem_nil, or_false] at ha
        rcases ha with (ha | ha | ha) | ha
        · refine ⟨0, by simp, ?_, ?_⟩ <;> subst ha <;> simp
        · refine ⟨0, by simp, ?_, ?_⟩ <;> subst ha <;> simp
        · refine ⟨0, by simp, ?_, ?_⟩ <;> subst ha <;> simp
        · rcases ih (start + s.valueLength) a ha with ⟨i, hi, h1, h2⟩
          refine ⟨i + 1, by simpa using hi, ?_, ?_⟩
          · rw [h1]
            simp [List.take_succ_cons, Nat.add_assoc]
          · rw [h2]
            simp [List.take_succ_cons, Nat.add_assoc]
      · simp only [composeAttrsAux, h, if_neg, if_false, List.append_nil,
          List.mem_append, List.mem_singleton] at ha
        rcases ha with ha | ha
        · refine ⟨0, by simp, ?_, ?_⟩ <;> subst ha <;> simp
        · rcases ih (start + s.valueLength) a ha with ⟨i, hi, h1, h2⟩
          refine ⟨i + 1, by simpa using hi, ?_, ?_⟩
          · rw [h1]
            simp [List.take_succ_cons, Nat.add_assoc]
          · rw [h2]
            simp [List.take_succ_cons, Nat.add_assoc]

lemma composeAttrs_ul_get (segs : List Segment) (start i : Nat) :
    ((composeAttrsAux segs start).filter
        (fun a => decide (a.attrType = AttrType.underline)))[i]? =
      (segs[i]?).map (fun s =>
        IBusAttr.mk AttrType.underline (annotUnderlineValue s.annot)
          (start + ((segs.map Segment.valueLength).take i).sum)
          (start + ((segs.map Segment.valueLength).take (i + 1)).sum)) := by
  induction segs generalizing start i with
  | nil => simp [composeAttrsAux]
  | cons s rest ih =>
      rw [composeAttrs_ul_cons]
      cases i with
      | zero => simp
      | succ j =>
          simp only [List.getElem?_cons_succ]
          rw [ih]
          cases hr : rest[j]? with
          | none => simp [hr]
          | some sj =>
              simp [hr, List.take_succ_cons, Nat.add_assoc]

lemma composeAttrs_ul_length (segs : List Segment) (start : Nat) :
    ((composeAttrsAux segs start).filter
        (fun a => decide (a.attrType = AttrType.underline))).length =
      segs.length := by
  induction segs generalizing start with
  | nil => simp [composeAttrsAux]
  | cons s rest ih =>
      rw [composeAttrs_ul_cons]
      simp [ih]

lemma compLoop_no_match (env : Env) (name : String)
    (hc : ∀ e ∈ env.compositionEntries, e.key ≠ name) :
    ∀ fuel i st, env.compositionEntries.length + 1 - i ≤ fuel →
      (compLoop env name i st fuel).1 = [] ∧
      (compLoop env name i st fuel).2.currentCompositionMode =
        st.currentCompositionMode ∧
      (compLoop env name i st fuel).2.preeditMethod = st.preeditMethod ∧
      (compLoop env name i st fuel).2.lastSyncTime = st.lastSyncTime ∧
      (compLoop env name i st fuel).2.uniqueCandidateIds =
        st.uniqueCandidateIds ∧
      (compLoop env name i st fuel).2.panelIcon = st.panelIcon ∧
      ∀ j, (compLoop env name i st fuel).2.propChecked[j]? =
        if i ≤ j ∧ j < env.compositionEntries.length ∧
            j < st.propChecked.length then Option.some false
        else st.propChecked[j]? := by
  intro fuel
  induction fuel with
  | zero =>
      intro i st hfuel
      have hi : env.compositionEntries.length + 1 ≤ i := by omega
      refine ⟨rfl, rfl, rfl, rfl, rfl, rfl, ?_⟩
      intro j
      rw [if_neg (by omega)]
      rfl
  | succ fuel ih =>
      intro i st hfuel
      cases hg : env.compositionEntries[i]? with
      | none =>
          have hi : env.compositionEntries.length ≤ i :=
            List.getElem?_eq_none_iff.mp hg
          have heq : compLoop env name i st (fuel + 1) = ([], st) := by
            simp [compLoop, hg]
          rw [heq]
          refine ⟨rfl, rfl, rfl, rfl, rfl, rfl, ?_⟩
          intro j
          rw [if_neg (by omega)]
      | some e =>
          have hmem : e ∈ env.compositionEntries := List.getElem?_mem hg
          have hilt : i < env.compositionEntries.length :=
            (List.getElem?_eq_some_iff.mp hg).1
          have hke : ¬ (e.key = name) := hc e hmem
          obtain ⟨h1, h2, h3, h4, h5, h6, h7⟩ :=
            ih (i + 1) { st with propChecked := st.propChecked.set i false }
              (by omega)
          simp only [compLoop, hg, hke, if_neg, if_false]
          refine ⟨h1, h2, h3, h4, h5, h6, ?_⟩
          intro j
          rw [h7 j]
          by_cases hij : j = i
          · subst hij
            rw [if_neg (by omega)]
            by_cases hpl : j < st.propChecked.length
            · rw [List.getElem?_set_self hpl, if_pos ⟨Nat.le_refl j, hilt, hpl⟩]
            · have hnone : (st.propChecked.set j false)[j]? = Option.none :=
                List.getElem?_eq_none_iff.mpr (by rw [List.length_set]; omega)
              have hnone2 : st.propChecked[j]? = Option.none :=
                List.getElem?_eq_none_iff.mpr (by omega)
              rw [hnone, if_neg (by omega), hnone2]
          · have hne : i ≠ j := fun h => hij h.symm
            rw [List.getElem?_set_ne hne]
            simp only [List.length_set]
            by_cases hcnd : i ≤ j ∧ j < env.compositionEntries.length ∧
                j < st.propChecked.length
            · rw [if_pos (by omega), if_pos hcnd]
            · rw [if_neg (by omega), if_neg hcnd]

lemma countSync_syncData (env : Env) (st : EngineState) (force : Bool)
    (t : Nat) :
    countSync (syncData env st force t).1 =
      if env.sessionPresent = false then 0
      else if force ∨ (t ≥ st.lastSyncTime ∧
          t - st.lastSyncTime ≥ kSyncDataInterval) then 1
      else 0 := by
  cases force with
  | false =>
      by_cases h1 : env.sessionPresent = false
      · simp [syncData, h1, countSync]
      · by_cases h2 : t ≥ st.lastSyncTime ∧
            t - st.lastSyncTime ≥ kSyncDataInterval
        · simp [syncData, h1, h2, countSync]
        · simp [syncData, h1, h2, countSync]
  | true =>
      by_cases h1 : env.sessionPresent = false
      · simp [syncData, h1, countSync]
      · simp [syncData, h1, countSync]

lemma syncData_state (env : Env) (st : EngineState) (force : Bool) (t : Nat) :
    (syncData env st force t).2 =
      if env.sessionPresent = false then st
      else if force ∨ (t ≥ st.lastSyncTime ∧
          t - st.lastSyncTime ≥ kSyncDataInterval) then
        { st with lastSyncTime := t }
      else st := by
  cases force with
  | false =>
      by_cases h1 : env.sessionPresent = false
      · simp [syncData, h1]
      · by_cases h2 : t ≥ st.lastSyncTime ∧
            t - st.lastSyncTime ≥ kSyncDataInterval
        · simp [syncData, h1, h2]
        · simp [syncData, h1, h2]
  | true =>
      by_cases h1 : env.sessionPresent = false
      · simp [syncData, h1]
      · simp [syncData, h1]

lemma countSync_focusOut (env : Env) (st : EngineState) (t : Nat)
    (fuel : Nat) :
    countSync (focusOut env st t fuel).1 =
      countSync (syncData env (revertSession env st fuel).2 false t).1 := by
  simp [focusOut, countSync_append, countSync_revertSession]

lemma focusOut_snd (env : Env) (st : EngineState) (t : Nat) (fuel : Nat) :
    (focusOut env st t fuel).2 =
      (syncData env (revertSession env st fuel).2 false t).2 := rfl

/-! ## Concrete fixtures used by the witness theorems -/

/-- An empty session output. -/
def wOut : Output :=
  { consumed := true, result := Option.none, preedit := Option.none,
    candidates := Option.none, mode := Option.none }

/-- A concrete environment: the translator echoes the key value, key value
126 is the single mode re-entry ("turn on in direct mode") key, there are
two composition-mode radio entries and one installed tool entry. -/
def wEnv : Env :=
  { sendKeyResp := fun _ => (true, wOut),
    sendCommandResp := fun _ => (true, wOut),
    translate := fun kv _ _ _ _ =>
      Option.some (KeyEvent.mk (Option.some kv) Option.none),
    isTurnOnInDirectMode := fun k => decide (k.keyCode = Option.some 126),
    compositionEntries :=
      [EngineProp.mk "CompositionMode.Hiragana" CompositionMode.hiragana "hiragana.png",
       EngineProp.mk "CompositionMode.Direct" CompositionMode.direct "direct.png"],
    toolEntries := Option.some ["config_dialog"],
    getIconPath := id,
    sessionPresent := true }

/-- A concrete state in DIRECT composition mode. -/
def wStDirect : EngineState :=
  { currentCompositionMode := CompositionMode.direct,
    preeditMethod := PreeditMethod.roman,
    lastSyncTime := 1000,
    uniqueCandidateIds := [7, kBadCandidateId],
    propChecked := [false, true],
    panelIcon := "direct.png" }

/-- An output carrying two candidate rows, the second without an id. -/
def wCandOut : Output :=
  { consumed := true, result := Option.none, preedit := Option.none,
    candidates := Option.some
      { candidates :=
          [{ value := "kanji", id := Option.some 7, index := 0,
             shortcut := Option.none },
           { value := "header", id := Option.none, index := 1,
             shortcut := Option.none }],
        focusedIndex := Option.some 0, size := 2 },
    mode := Option.none }

/-- A small concrete config schema: one enum field, one unsigned-integer
field, one boolean field. -/
def wSchema : ConfigSchema :=
  { findFieldByName := fun n =>
      if n = "preedit_method" then Option.some CppType.cppEnum
      else if n = "suggestions_size" then Option.some CppType.cppUInt32
      else if n = "use_auto_ime_turn_off" then Option.some CppType.cppBool
      else Option.none,
    findEnumValueByName := fun v =>
      if v = "ROMAN" then Option.some 0
      else if v = "KANA" then Option.some 1
      else Option.none }

/-- A two-segment preedit whose length fields match the texts. -/
def wPreedit : Preedit :=
  { segments :=
      [{ value := "ab", valueLength := 2, annot := Annot.underline },
       { value := "c", valueLength := 1, annot := Annot.highlight }],
    cursor := 3, highlightedPosition := Option.none }

/-- A conversion output whose committed result text ("X") differs from its
preedit text ("Y"). -/
def cexOut : Output :=
  { consumed := true, result := Option.some "X",
    preedit := Option.some
      { segments := [{ value := "Y", valueLength := 1, annot := Annot.none }],
        cursor := 0, highlightedPosition := Option.none },
    candidates := Option.none, mode := Option.none }

/-- A harness client whose every `SendKey` response is `cexOut`. -/
def cexResp : Nat → Output := fun _ => cexOut

/-- The reading fed to the harness counterexample case. -/
def cexHiragana : String := "a"

/-- The expected text of the harness counterexample case. -/
def cexExpected : String := "X"

/-- The key sequence the harness generates from `cexHiragana`. -/
def cexKeys : List KeyEvent :=
  [KeyEvent.mk (Option.some 97) Option.none, spaceKey]

/-- A property key found in neither property namespace of the fixture. -/
def cForeignName : String := "ForeignKey"

/-- A field name absent from the fixture schema. -/
def fldUnknown : String := "no_such_field"

/-- The fixture schema's boolean field. -/
def fldBool : String := "use_auto_ime_turn_off"

/-- The fixture schema's unsigned-integer field. -/
def fldU32 : String := "suggestions_size"

/-- The key event the fixture translator yields for key value 97. -/
def wKey97 : KeyEvent := KeyEvent.mk (Option.some 97) Option.none

/-- The key event the fixture translator yields for key value 126 (the
fixture's mode re-entry key). -/
def wKey126 : KeyEvent := KeyEvent.mk (Option.some 126) Option.none

/-! ## Claim theorems -/

/-- C1: while the composition mode is DIRECT, a successfully translated
key outside the `IsTurnOnInDirectMode` enable set makes `ProcessKeyEvent`
return not-consumed with no Session Client call and unchanged state; a key
inside that set reaches the session through a `SendKey` call. -/
theorem processKeyEvent_direct_mode (env : Env) (st : EngineState)
    (keyval keycode modifiers : Nat) (engineName : String) (fuel : Nat)
    (key : KeyEvent)
    (hmode : st.currentCompositionMode = CompositionMode.direct)
    (hrel : modifiers &&& kIBusReleaseMask = 0)
    (htr : env.translate keyval keycode modifiers st.preeditMethod
        (decide (engineName = "mozc-jp")) = Option.some key) :
    (env.isTurnOnInDirectMode key = false →
       processKeyEvent env st keyval keycode modifiers engineName fuel =
         (false, [], st)) ∧
    (env.isTurnOnInDirectMode key = true →
       SessionCall.sendKey key ∈
         (processKeyEvent env st keyval keycode modifiers engineName fuel).2.1) := by
  constructor
  · intro hoff
    simp [processKeyEvent, hrel, htr, hmode, hoff]
  · intro hon
    by_cases hok : (env.sendKeyResp key).1 = false
    · simp [processKeyEvent, hrel, htr, hmode, hon, hok]
    · simp [processKeyEvent, hrel, htr, hmode, hon, hok]

/-- Witness for C1 at the concrete fixture: key value 97 (outside the
enable set) is rejected without any session call; key value 126 (inside
the set) produces a `SendKey`. -/
theorem processKeyEvent_direct_mode_witness :
    (wStDirect.currentCompositionMode = CompositionMode.direct ∧
     (0 : Nat) &&& kIBusReleaseMask = 0 ∧
     wEnv.translate 97 38 0 wStDirect.preeditMethod
       (decide (("mozc" : String) = "mozc-jp")) = Option.some wKey97 ∧
     wEnv.isTurnOnInDirectMode wKey97 = false ∧
     processKeyEvent wEnv wStDirect 97 38 0 "mozc" 3 = (false, [], wStDirect)) ∧
    (wEnv.translate 126 38 0 wStDirect.preeditMethod
       (decide (("mozc" : String) = "mozc-jp")) = Option.some wKey126 ∧
     wEnv.isTurnOnInDirectMode wKey126 = true ∧
     SessionCall.sendKey wKey126 ∈
       (processKeyEvent wEnv wStDirect 126 38 0 "mozc" 3).2.1) := by
  refine ⟨⟨by decide, by decide, by decide, by decide, ?_⟩,
          ⟨by decide, by decide, ?_⟩⟩
  · exact (processKeyEvent_direct_mode wEnv wStDirect 97 38 0 "mozc" 3 wKey97
      (by decide) (by decide) (by decide)).1 (by decide)
  · exact (processKeyEvent_direct_mode wEnv wStDirect 126 38 0 "mozc" 3 wKey126
      (by decide) (by decide) (by decide)).2 (by decide)

/-- C2: a release-phase key event (release bit set in the modifiers) is
immediately reported not-consumed, with no Session Client call and no
state change; since this holds for every environment, neither the Key
Translator nor the session is consulted. -/
theorem processKeyEvent_release (env : Env) (st : EngineState)
    (keyval keycode modifiers : Nat) (engineName : String) (fuel : Nat)
    (hrel : modifiers &&& kIBusReleaseMask ≠ 0) :
    processKeyEvent env st keyval keycode modifiers engineName fuel =
      (false, [], st) := by
  simp [processKeyEvent, hrel]

/-- Witness for C2 with the release bit set. -/
theorem processKeyEvent_release_witness :
    ((2 ^ 30 : Nat) &&& kIBusReleaseMask ≠ 0) ∧
    processKeyEvent wEnv wStDirect 97 38 (2 ^ 30) "mozc" 3 =
      (false, [], wStDirect) :=
  ⟨by decide,
   processKeyEvent_release wEnv wStDirect 97 38 (2 ^ 30) "mozc" 3 (by decide)⟩

/-- C4: `SetCompositionMode(DIRECT)` issues a SUBMIT command (and never a
REVERT anywhere in its trace) and applies the resulting output; any other
target mode issues SWITCH_INPUT_MODE; in both cases the local composition
mode ends up equal to the requested mode. -/
theorem setCompositionMode_spec (env : Env) (st : EngineState)
    (m : CompositionMode) (fuel : Nat) :
    (m = CompositionMode.direct →
       setCompositionMode env m st (fuel + 1) =
         (SessionCall.sendCommand SessionCommand.submit ::
            (updateAll env (env.sendCommandResp SessionCommand.submit).2 st fuel).1,
          { (updateAll env (env.sendCommandResp SessionCommand.submit).2 st fuel).2 with
              currentCompositionMode := m }) ∧
       SessionCall.sendCommand SessionCommand.revert ∉
         (setCompositionMode env m st (fuel + 1)).1) ∧
    (m ≠ CompositionMode.direct →
       setCompositionMode env m st (fuel + 1) =
         ([SessionCall.sendCommand (SessionCommand.switchInputMode m)],
          { st with currentCompositionMode := m })) ∧
    (setCompositionMode env m st (fuel + 1)).2.currentCompositionMode = m := by
  refine ⟨?_, ?_, ?_⟩
  · intro hd
    subst hd
    refine ⟨by simp [setCompositionMode], ?_⟩
    intro hmem
    simp only [setCompositionMode, if_pos] at hmem
    rcases List.mem_cons.mp hmem with h | h
    · exact absurd h.symm (by simp)
    · exact benign_ne_revert _
        (updateAll_benign env (env.sendCommandResp SessionCommand.submit).2 st fuel _ h)
        rfl
  · intro hd
    simp [setCompositionMode, hd]
  · by_cases hd : m = CompositionMode.direct
    · subst hd
      simp [setCompositionMode]
    · simp [setCompositionMode, hd]

/-- Witness for C4: the DIRECT branch and, at mode HIRAGANA, the
SWITCH_INPUT_MODE branch, on the concrete fixture. -/
theorem setCompositionMode_spec_witness :
    (setCompositionMode wEnv CompositionMode.direct wStDirect 3 =
       (SessionCall.sendCommand SessionCommand.submit ::
          (updateAll wEnv (wEnv.sendCommandResp SessionCommand.submit).2 wStDirect 2).1,
        { (updateAll wEnv (wEnv.sendCommandResp SessionCommand.submit).2 wStDirect 2).2 with
            currentCompositionMode := CompositionMode.direct }) ∧
     SessionCall.sendCommand SessionCommand.revert ∉
       (setCompositionMode wEnv CompositionMode.direct wStDirect 3).1) ∧
    (CompositionMode.hiragana ≠ CompositionMode.direct ∧
     setCompositionMode wEnv CompositionMode.hiragana wStDirect 3 =
       ([SessionCall.sendCommand (SessionCommand.switchInputMode CompositionMode.hiragana)],
        { wStDirect with currentCompositionMode := CompositionMode.hiragana })) := by
  refine ⟨⟨?_, ?_⟩, by decide, ?_⟩
  · exact ((setCompositionMode_spec wEnv wStDirect CompositionMode.direct 2).1 rfl).1
  · exact ((setCompositionMode_spec wEnv wStDirect CompositionMode.direct 2).1 rfl).2
  · exact (setCompositionMode_spec wEnv wStDirect CompositionMode.hiragana 2).2.1
      (by decide)

/-- C10: with a live session, a non-forced `SyncData` performs the
underlying sync exactly when the clock has not moved backwards and the
debounce interval has elapsed; a backwards clock makes it a strict no-op;
and when no sync is performed the state (so in particular
`last_sync_time_`) is unchanged. -/
theorem syncData_guard (env : Env) (st : EngineState) (t : Nat)
    (hp : env.sessionPresent = true) :
    ((syncData env st false t).1 = [SessionCall.syncData] ↔
       t ≥ st.lastSyncTime ∧ t - st.lastSyncTime ≥ kSyncDataInterval) ∧
    (t < st.lastSyncTime → syncData env st false t = ([], st)) ∧
    ((syncData env st false t).1 = [] → (syncData env st false t).2 = st) := by
  by_cases hc : t ≥ st.lastSyncTime ∧ t - st.lastSyncTime ≥ kSyncDataInterval
  · refine ⟨by simp [syncData, hp, hc], ?_, ?_⟩
    · intro hlt
      exact absurd hc.1 (by omega)
    · intro h0
      simp [syncData, hp, hc] at h0
  · refine ⟨by simp [syncData, hp, hc], ?_, ?_⟩
    · intro _
      simp [syncData, hp, hc]
    · intro _
      simp [syncData, hp, hc]

/-- C3: every candidate-list update stores exactly one id per candidate
row of the rendered candidate list (the id when the row has one, the
sentinel otherwise; the empty list when the output has no candidates), and
`CandidateClicked` is a no-op on an out-of-range index (lookup `none`) or
a sentinel row, so no SELECT_CANDIDATE command ever carries the sentinel
id — the traced SELECT_CANDIDATE id is always the stored, non-sentinel id
of the clicked row. -/
theorem candidateIds_invariant :
    (∀ out : Output,
       (out.candidates = Option.none → updateCandidatesIds out = []) ∧
       (∀ cs, out.candidates = Option.some cs →
          (updateCandidatesIds out).length = cs.candidates.length ∧
          ∀ i, i < cs.candidates.length →
            (updateCandidatesIds out)[i]? =
              (cs.candidates[i]?).map (fun c => c.id.getD kBadCandidateId))) ∧
    (∀ env st index b s fuel,
       ((st.uniqueCandidateIds[index]? = Option.none ∨
         st.uniqueCandidateIds[index]? = Option.some kBadCandidateId) →
          candidateClicked env st index b s fuel = ([], st)) ∧
       (∀ id, SessionCall.sendCommand (SessionCommand.selectCandidate id) ∈
            (candidateClicked env st index b s fuel).1 →
          st.uniqueCandidateIds[index]? = Option.some id ∧
            id ≠ kBadCandidateId)) := by
  constructor
  · intro out
    constructor
    · intro h
      simp [updateCandidatesIds, h]
    · intro cs hc
      constructor
      · simp [updateCandidatesIds, hc]
      · intro i hi
        simp only [updateCandidatesIds, hc, List.getElem?_map]
        cases hcc : cs.candidates[i]? with
        | none => rfl
        | some c =>
            cases hid : c.id with
            | none => simp [Option.getD, hid]
            | some v => simp [Option.getD, hid]
  · intro env st index b s fuel
    constructor
    · intro h
      rcases h with h | h
      · simp [candidateClicked, h]
      · simp [candidateClicked, h, kBadCandidateId]
    · intro id hmem
      cases hg : st.uniqueCandidateIds[index]? with
      | none => simp [candidateClicked, hg] at hmem
      | some id0 =>
          by_cases hbad : id0 = kBadCandidateId
          · rw [candidateClicked] at hmem
            rw [hg] at hmem
            simp [hbad] at hmem
          · rw [candidateClicked] at hmem
            rw [hg] at hmem
            simp only [hbad, if_neg, if_false] at hmem
            rcases List.mem_cons.mp hmem with h | h
            · have hid : id = id0 := by
                simp only [SessionCall.sendCommand.injEq,
                  SessionCommand.selectCandidate.injEq] at h
                exact h
              subst hid
              exact ⟨rfl, hbad⟩
            · exact absurd rfl
                (benign_ne_selectCandidate _
                  (updateAll_benign env
                    (env.sendCommandResp (SessionCommand.selectCandidate id0)).2
                    st fuel _ h) id)

/-- Witness for C3: the fixture candidate lists and candidate clicks on a
real row, on a sentinel row and out of range. -/
theorem candidateIds_invariant_witness :
    (updateCandidatesIds wOut = [] ∧
     updateCandidatesIds wCandOut = [7, kBadCandidateId] ∧
     (updateCandidatesIds wCandOut).length = 2) ∧
    (candidateClicked wEnv wStDirect 1 1 0 3 = ([], wStDirect) ∧
     candidateClicked wEnv wStDirect 5 1 0 3 = ([], wStDirect) ∧
     (∀ id, SessionCall.sendCommand (SessionCommand.selectCandidate id) ∈
          (candidateClicked wEnv wStDirect 0 1 0 3).1 →
        wStDirect.uniqueCandidateIds[(0 : Nat)]? = Option.some id ∧
          id ≠ kBadCandidateId)) := by
  refine ⟨⟨?_, by decide, by decide⟩, ?_, ?_, ?_⟩
  · exact (candidateIds_invariant.1 wOut).1 (by decide)
  · exact (candidateIds_invariant.2 wEnv wStDirect 1 1 0 3).1 (by decide)
  · exact (candidateIds_invariant.2 wEnv wStDirect 5 1 0 3).1 (by decide)
  · exact (candidateIds_invariant.2 wEnv wStDirect 0 1 0 3).2

/-- C7: a configuration change in the expected section is dropped, with no
Session Client call at all, when the named field is unknown to the config
schema or the supplied value's type does not match the field's declared
type; otherwise exactly one `SetConfig` of the applied update followed by
one `SyncData` is issued. -/
theorem updateConfig_validation (schema : ConfigSchema) (name : String)
    (g : GValueT) :
    (schema.findFieldByName name = Option.none →
       updateConfig schema kMozcSectionName name g = []) ∧
    (∀ t, schema.findFieldByName name = Option.some t →
       (specTypeMatches schema t g = false →
          updateConfig schema kMozcSectionName name g = []) ∧
       (specTypeMatches schema t g = true →
          ∃ u, updateConfig schema kMozcSectionName name g =
            [SessionCall.setConfig u, SessionCall.syncData])) := by
  constructor
  · intro h
    simp [updateConfig, h]
  · intro t ht
    cases t with
    | cppEnum =>
        cases g with
        | gstring sv =>
            cases he : schema.findEnumValueByName sv with
            | none =>
                refine ⟨fun _ => ?_, fun hm => ?_⟩
                · simp [updateConfig, ht, he]
                · simp [specTypeMatches, he] at hm
            | some v =>
                refine ⟨fun hm => ?_, fun _ => ?_⟩
                · simp [specTypeMatches, he] at hm
                · exact ⟨ConfigUpdate.enumVal name v, by simp [updateConfig, ht, he]⟩
        | gint i => exact ⟨fun _ => by simp [updateConfig, ht],
            fun hm => by simp [specTypeMatches] at hm⟩
        | gboolean b => exact ⟨fun _ => by simp [updateConfig, ht],
            fun hm => by simp [specTypeMatches] at hm⟩
        | gother => exact ⟨fun _ => by simp [updateConfig, ht],
            fun hm => by simp [specTypeMatches] at hm⟩
    | cppUInt32 =>
        cases g with
        | gint i =>
            refine ⟨fun hm => ?_, fun _ => ?_⟩
            · simp [specTypeMatches] at hm
            · exact ⟨ConfigUpdate.u32Val name ((i % ((2 : Int) ^ 32)).toNat),
                by simp [updateConfig, ht]⟩
        | gstring sv => exact ⟨fun _ => by simp [updateConfig, ht],
            fun hm => by simp [specTypeMatches] at hm⟩
        | gboolean b => exact ⟨fun _ => by simp [updateConfig, ht],
            fun hm => by simp [specTypeMatches] at hm⟩
        | gother => exact ⟨fun _ => by simp [updateConfig, ht],
            fun hm => by simp [specTypeMatches] at hm⟩
    | cppBool =>
        cases g with
        | gboolean b =>
            refine ⟨fun hm => ?_, fun _ => ?_⟩
            · simp [specTypeMatches] at hm
            · exact ⟨ConfigUpdate.boolVal name b, by simp [updateConfig, ht]⟩
        | gstring sv => exact ⟨fun _ => by simp [updateConfig, ht],
            fun hm => by simp [specTypeMatches] at hm⟩
        | gint i => exact ⟨fun _ => by simp [updateConfig, ht],
            fun hm => by simp [specTypeMatches] at hm⟩
        | gother => exact ⟨fun _ => by simp [updateConfig, ht],
            fun hm => by simp [specTypeMatches] at hm⟩
    | cppOther =>
        exact ⟨fun _ => by cases g <;> simp [updateConfig, ht],
          fun hm => by simp [specTypeMatches] at hm⟩

/-- Witness for C7: an unknown field is dropped, a boolean field offered a
string is dropped, an unsigned-integer field offered an int is applied and
pushed. -/
theorem updateConfig_validation_witness :
    (wSchema.findFieldByName fldUnknown = Option.none ∧
     updateConfig wSchema kMozcSectionName fldUnknown (GValueT.gboolean true) = []) ∧
    (wSchema.findFieldByName fldBool = Option.some CppType.cppBool ∧
     specTypeMatches wSchema CppType.cppBool (GValueT.gstring fldUnknown) = false ∧
     updateConfig wSchema kMozcSectionName fldBool (GValueT.gstring fldUnknown) = []) ∧
    (wSchema.findFieldByName fldU32 = Option.some CppType.cppUInt32 ∧
     specTypeMatches wSchema CppType.cppUInt32 (GValueT.gint 9) = true ∧
     ∃ u, updateConfig wSchema kMozcSectionName fldU32 (GValueT.gint 9) =
       [SessionCall.setConfig u, SessionCall.syncData]) := by
  refine ⟨⟨by decide, ?_⟩, ⟨by decide, by decide, ?_⟩, by decide, by decide, ?_⟩
  · exact (updateConfig_validation wSchema fldUnknown (GValueT.gboolean true)).1
      (by decide)
  · exact ((updateConfig_validation wSchema fldBool
      (GValueT.gstring fldUnknown)).2 CppType.cppBool (by decide)).1 (by decide)
  · exact ((updateConfig_validation wSchema fldU32 (GValueT.gint 9)).2
      CppType.cppUInt32 (by decide)).2 (by decide)

/-- C9 counterexample: with identity normalization, a conversion whose
final output commits the result text "X" but shows the preedit text "Y",
the harness scores "Y" — the preedit concatenation — and never scores the
committed text "X"; so the scored string is not the committed (finalized)
text.  (The REVERT after scoring does happen, as the trace shows.) -/
theorem calculateBLEU_scores_cex :
    cexOut.result = Option.some "X" ∧
    getPreedit cexOut = Option.some "Y" ∧
    (calculateBLEU id id id (fun _ _ => 0) cexResp cexHiragana cexExpected).2 =
      [HarnessEvent.sentKey onKey,
       HarnessEvent.sentKey (KeyEvent.mk (Option.some 97) Option.none),
       HarnessEvent.sentKey spaceKey,
       HarnessEvent.scored ["X"] "Y",
       HarnessEvent.sentCommand SessionCommand.revert] ∧
    HarnessEvent.scored ["X"] "X" ∉
      (calculateBLEU id id id (fun _ _ => 0) cexResp cexHiragana
        cexExpected).2 := by
  decide

/-- C9 amended: whenever a case is actually scored (key generation
succeeded and the final output carries a nonempty preedit), the string
that is normalized and scored against the normalized expected text is the
preedit text of the final conversion output (the concatenation of its
preedit segment values, as read by `GetPreedit`), and immediately after
the scoring the harness issues a REVERT session command before the case
ends. -/
theorem calculateBLEU_scores_amended (h2r f2h normalize : String → String)
    (bleu : List String → String → Int) (resp : Nat → Output)
    (hir exp : String) (keys : List KeyEvent) (p : String)
    (hkeys : generateKeySequenceFrom h2r f2h hir = Option.some keys)
    (hpre : getPreedit (runKeys resp keys).1 = Option.some p)
    (hne : p ≠ "") :
    calculateBLEU h2r f2h normalize bleu resp hir exp =
      (Option.some (bleu [normalize exp] (normalize p)),
       (runKeys resp keys).2.2 ++
         [HarnessEvent.scored [normalize exp] (normalize p),
          HarnessEvent.sentCommand SessionCommand.revert]) := by
  simp [calculateBLEU, hkeys, hpre, hne]

/-- Witness for C9's amended theorem at the concrete fixture case. -/
theorem calculateBLEU_scores_amended_witness :
    (generateKeySequenceFrom id id cexHiragana = Option.some cexKeys ∧
     getPreedit (runKeys cexResp cexKeys).1 = Option.some "Y" ∧
     ("Y" : String) ≠ "") ∧
    calculateBLEU id id id (fun _ _ => 0) cexResp cexHiragana cexExpected =
      (Option.some 0,
       (runKeys cexResp cexKeys).2.2 ++
         [HarnessEvent.scored [id cexExpected] (id "Y"),
          HarnessEvent.sentCommand SessionCommand.revert]) :=
  ⟨⟨by decide, by decide, by decide⟩,
   calculateBLEU_scores_amended id id id (fun _ _ => 0) cexResp cexHiragana
     cexExpected cexKeys "Y" (by decide) (by decide) (by decide)⟩

/-- C8 counterexample: activating the foreign key "ForeignKey" (found in
neither property namespace) with state CHECKED issues no session call, but
it is not a no-op on property state: the checked radio entry of the
fixture (the second entry, previously checked) is set to unchecked, so the
resulting state differs from the initial one. -/
theorem propertyActivate_foreign_cex :
    (propertyActivate wEnv cForeignName true wStDirect 5).1 = [] ∧
    wStDirect.propChecked = [false, true] ∧
    (propertyActivate wEnv cForeignName true wStDirect 5).2.propChecked =
      [false, false] ∧
    (propertyActivate wEnv cForeignName true wStDirect 5).2 ≠ wStDirect := by
  decide

/-- C8 amended: a `PropertyActivate` whose key is in neither namespace
issues no session command and no tool launch, and leaves the composition
mode, panel icon, preedit method, sync timestamp and candidate ids
unchanged; when the activated state is not CHECKED it is a complete no-op,
but when it is CHECKED every composition-mode radio entry is set to
unchecked (the previously checked entry loses its checked state). -/
theorem propertyActivate_foreign_amended (env : Env) (st : EngineState)
    (name : String) (checked : Bool) (fuel : Nat)
    (htool : (match env.toolEntries with
              | Option.some tools => tools.any (fun t => decide (t = name))
              | Option.none => false) = false)
    (hcomp : ∀ e ∈ env.compositionEntries, e.key ≠ name)
    (hfuel : env.compositionEntries.length + 2 ≤ fuel) :
    (propertyActivate env name checked st fuel).1 = [] ∧
    (propertyActivate env name checked st fuel).2.currentCompositionMode =
      st.currentCompositionMode ∧
    (propertyActivate env name checked st fuel).2.panelIcon = st.panelIcon ∧
    (propertyActivate env name checked st fuel).2.preeditMethod =
      st.preeditMethod ∧
    (propertyActivate env name checked st fuel).2.lastSyncTime =
      st.lastSyncTime ∧
    (propertyActivate env name checked st fuel).2.uniqueCandidateIds =
      st.uniqueCandidateIds ∧
    (checked = false → propertyActivate env name checked st fuel = ([], st)) ∧
    (checked = true → ∀ j,
       (propertyActivate env name checked st fuel).2.propChecked[j]? =
         if j < env.compositionEntries.length ∧ j < st.propChecked.length
         then Option.some false else st.propChecked[j]?) := by
  obtain ⟨f, rfl⟩ : ∃ f, fuel = f + 1 := ⟨fuel - 1, by omega⟩
  cases checked with
  | false =>
      have heq : propertyActivate env name false st (f + 1) = ([], st) := by
        simp [propertyActivate, htool]
      rw [heq]
      exact ⟨rfl, rfl, rfl, rfl, rfl, rfl, fun _ => rfl,
        fun h => absurd h (by decide)⟩
  | true =>
      have heq : propertyActivate env name true st (f + 1) =
          compLoop env name 0 st f := by
        simp [propertyActivate, htool]
      obtain ⟨h1, h2, h3, h4, h5, h6, h7⟩ :=
        compLoop_no_match env name hcomp f 0 st (by omega)
      rw [heq]
      refine ⟨h1, h2, h6, h3, h4, h5, fun h => absurd h (by decide),
        fun _ j => ?_⟩
      rw [h7 j]
      by_cases hcnd : j < env.compositionEntries.length ∧
          j < st.propChecked.length
      · rw [if_pos ⟨Nat.zero_le j, hcnd.1, hcnd.2⟩, if_pos hcnd]
      · rw [if_neg (by omega), if_neg hcnd]

/-- Witness for C8's amended theorem: the foreign key on the concrete
fixture, both activation states. -/
theorem propertyActivate_foreign_amended_witness :
    ((match wEnv.toolEntries with
      | Option.some tools => tools.any (fun t => decide (t = cForeignName))
      | Option.none => false) = false ∧
     (∀ e ∈ wEnv.compositionEntries, e.key ≠ cForeignName) ∧
     wEnv.compositionEntries.length + 2 ≤ 5) ∧
    ((propertyActivate wEnv cForeignName true wStDirect 5).1 = [] ∧
     (propertyActivate wEnv cForeignName true wStDirect 5).2.panelIcon =
       wStDirect.panelIcon ∧
     (∀ j, (propertyActivate wEnv cForeignName true wStDirect 5).2.propChecked[j]? =
        if j < wEnv.compositionEntries.length ∧ j < wStDirect.propChecked.length
        then Option.some false else wStDirect.propChecked[j]?)) ∧
    propertyActivate wEnv cForeignName false wStDirect 5 = ([], wStDirect) := by
  have hth := propertyActivate_foreign_amended wEnv wStDirect cForeignName true 5
    (by decide) (by decide) (by decide)
  have hth2 := propertyActivate_foreign_amended wEnv wStDirect cForeignName false 5
    (by decide) (by decide) (by decide)
  exact ⟨⟨by decide, by decide, by decide⟩,
    ⟨hth.1, hth.2.2.1, hth.2.2.2.2.2.2.2 rfl⟩, hth2.2.2.2.2.2.2.1 rfl⟩

/-- C5: for a preedit whose per-segment length fields agree with the
segment texts, the composed text is the in-order concatenation of the
segment values, the segment lengths sum to the composed text's length, and
the emitted attribute ranges tile the interval from 0 to that length: each
attribute covers exactly its segment's slice (partial sum up to the
segment, to partial sum through it), and the underline attributes are in
order one per segment with each range starting where the previous one
ended (position i starts at the sum of the first i lengths and ends at the
sum of the first i+1; the full sum is the text length). -/
theorem composePreeditText_spec (p : Preedit)
    (hlen : ∀ s ∈ p.segments, s.valueLength = s.value.length) :
    (composePreeditText p).1 = String.join (p.segments.map Segment.value) ∧
    (p.segments.map Segment.valueLength).sum =
      (composePreeditText p).1.length ∧
    (∀ a ∈ (composePreeditText p).2, ∃ i, i < p.segments.length ∧
       a.startIndex = ((p.segments.map Segment.valueLength).take i).sum ∧
       a.endIndex = ((p.segments.map Segment.valueLength).take (i + 1)).sum) ∧
    ((composePreeditText p).2.filter
        (fun a => decide (a.attrType = AttrType.underline))).length =
      p.segments.length ∧
    ∀ i, i < p.segments.length →
      ∃ a, ((composePreeditText p).2.filter
          (fun a => decide (a.attrType = AttrType.underline)))[i]? =
            Option.some a ∧
        a.startIndex = ((p.segments.map Segment.valueLength).take i).sum ∧
        a.endIndex = ((p.segments.map Segment.valueLength).take (i + 1)).sum := by
  refine ⟨rfl, ?_, ?_, ?_, ?_⟩
  · show (p.segments.map Segment.valueLength).sum =
      ((p.segments.map Segment.value).foldl (· ++ ·) "").length
    rw [length_foldl_append]
    have hmap : p.segments.map Segment.valueLength =
        p.segments.map (fun s => s.value.length) :=
      List.map_congr_left hlen
    rw [hmap, List.map_map]
    simp only [Function.comp_def, String.length_empty, Nat.zero_add]
  · intro a ha
    have h := composeAttrsAux_mem p.segments 0 a ha
    simpa using h
  · exact composeAttrs_ul_length p.segments 0
  · intro i hi
    have h := composeAttrs_ul_get p.segments 0 i
    rcases List.getElem?_eq_getElem (by simpa using hi) with hg
    refine ⟨IBusAttr.mk AttrType.underline
        (annotUnderlineValue (p.segments.get ⟨i, hi⟩).annot)
        (((p.segments.map Segment.valueLength).take i).sum)
        (((p.segments.map Segment.valueLength).take (i + 1)).sum), ?_, rfl, rfl⟩
    show ((composeAttrsAux p.segments 0).filter
        (fun a => decide (a.attrType = AttrType.underline)))[i]? = _
    rw [h, hg]
    simp [List.get_eq_getElem]

/-- Witness for C5 on a concrete two-segment preedit with consistent
length fields. -/
theorem composePreeditText_spec_witness :
    (∀ s ∈ wPreedit.segments, s.valueLength = s.value.length) ∧
    ((composePreeditText wPreedit).1 =
       String.join (wPreedit.segments.map Segment.value) ∧
     (wPreedit.segments.map Segment.valueLength).sum =
       (composePreeditText wPreedit).1.length ∧
     (∀ a ∈ (composePreeditText wPreedit).2, ∃ i,
        i < wPreedit.segments.length ∧
        a.startIndex = ((wPreedit.segments.map Segment.valueLength).take i).sum ∧
        a.endIndex =
          ((wPreedit.segments.map Segment.valueLength).take (i + 1)).sum) ∧
     ((composePreeditText wPreedit).2.filter
         (fun a => decide (a.attrType = AttrType.underline))).length =
       wPreedit.segments.length ∧
     ∀ i, i < wPreedit.segments.length →
       ∃ a, ((composePreeditText wPreedit).2.filter
           (fun a => decide (a.attrType = AttrType.underline)))[i]? =
             Option.some a ∧
         a.startIndex = ((wPreedit.segments.map Segment.valueLength).take i).sum ∧
         a.endIndex =
           ((wPreedit.segments.map Segment.valueLength).take (i + 1)).sum) :=
  ⟨by decide, composePreeditText_spec wPreedit (by decide)⟩

/-- C6: two `FocusOut` calls whose second happens less than the
5-minute interval after the last performed sync (the timestamp recorded in
the state after the first call) perform at most one underlying `SyncData`
session call between them; and a forced sync with a live session performs
exactly one `SyncData` call whatever the elapsed time. -/
theorem syncData_debounce (env : Env) (st : EngineState)
    (t1 t2 t3 f1 f2 : Nat) :
    (t2 < (focusOut env st t1 f1).2.lastSyncTime + kSyncDataInterval →
       countSync (focusOut env st t1 f1).1 +
         countSync (focusOut env (focusOut env st t1 f1).2 t2 f2).1 ≤ 1) ∧
    (env.sessionPresent = true →
       countSync (syncData env st true t3).1 = 1) := by
  constructor
  · intro h2
    by_cases hp : env.sessionPresent = false
    · rw [countSync_focusOut, countSync_focusOut, countSync_syncData,
          countSync_syncData]
      simp [hp]
    · have hA := revertSession_lastSync env st f1
      have hB := revertSession_lastSync env (focusOut env st t1 f1).2 f2
      rw [countSync_focusOut, countSync_focusOut, countSync_syncData,
          countSync_syncData, hA, hB]
      by_cases hc1 : t1 ≥ st.lastSyncTime ∧
          t1 - st.lastSyncTime ≥ kSyncDataInterval
      · have hmid : (focusOut env st t1 f1).2.lastSyncTime = t1 := by
          rw [focusOut_snd, syncData_state, hA]
          simp [hp, hc1]
        rw [hmid] at h2 ⊢
        have hc2 : ¬ (t2 ≥ t1 ∧ t2 - t1 ≥ kSyncDataInterval) := by
          unfold kSyncDataInterval at h2 ⊢
          omega
        simp [hp, hc1, hc2]
      · have hmid : (focusOut env st t1 f1).2.lastSyncTime =
            st.lastSyncTime := by
          rw [focusOut_snd, syncData_state, hA]
          simp [hp, hc1, hA]
        rw [hmid]
        rw [if_neg hp, if_neg hp]
        simp only [Bool.false_eq_true, false_or]
        rw [if_neg hc1]
        split <;> omega
  · intro hp
    rw [countSync_syncData]
    simp [hp]

/-- Witness for C6: first `FocusOut` at time 1300 syncs (state time 1000),
the second at time 1400 is inside the interval, so together they sync
once; and a forced sync at time 0 performs exactly one call. -/
theorem syncData_debounce_witness :
    (1400 < (focusOut wEnv wStDirect 1300 2).2.lastSyncTime +
       kSyncDataInterval ∧
     countSync (focusOut wEnv wStDirect 1300 2).1 +
       countSync
         (focusOut wEnv (focusOut wEnv wStDirect 1300 2).2 1400 2).1 ≤ 1) ∧
    (wEnv.sessionPresent = true ∧
     countSync (syncData wEnv wStDirect true 0).1 = 1) := by
  refine ⟨⟨by decide, ?_⟩, by decide, ?_⟩
  · exact (syncData_debounce wEnv wStDirect 1300 1400 0 2 2).1 (by decide)
  · exact (syncData_debounce wEnv wStDirect 1300 1400 0 2 2).2 (by decide)

/-- Witness for C10: at `lastSyncTime = 1000`, time 1300 syncs, time 999
(clock moved backwards) does not. -/
theorem syncData_guard_witness :
    wEnv.sessionPresent = true ∧
    ((syncData wEnv wStDirect false 1300).1 = [SessionCall.syncData] ∧
     (1300 ≥ wStDirect.lastSyncTime ∧
      1300 - wStDirect.lastSyncTime ≥ kSyncDataInterval)) ∧
    (999 < wStDirect.lastSyncTime ∧
     syncData wEnv wStDirect false 999 = ([], wStDirect)) := by
  refine ⟨by decide, ⟨?_, by decide⟩, by decide, ?_⟩
  · exact ((syncData_guard wEnv wStDirect 1300 (by decide)).1).mpr (by decide)
  · exact (syncData_guard wEnv wStDirect 999 (by decide)).2.1 (by decide)
